import Mathlib

/-
Verification of the model-selection, checkpointing and conformal-calibration
core of the DUE repository (training scripts `train.py` and
`train_due_new_wb.py`, helper module `lib/utils.py`).

The embedding is shallow:
* Python float metric values become `FVal` (a rational, plus infinity, minus
  infinity, or NaN) with IEEE-754 comparison semantics, so that the comparison
  behaviour of `<`, `>` and `>=` on non-finite values is preserved exactly.
* Model / optimizer / likelihood state dictionaries are abstracted to natural
  number identifiers: the selection logic never inspects their contents, it
  only stores and restores them wholesale.
* The checkpoint records written by `torch.save` become association lists of
  string keys and `CkptVal` values with exactly the keys and ordering that the
  source builds.
* The per-epoch checkpoint decisions of both training scripts become explicit
  step functions on selection states that also emit the sequence of
  best-value-update and file-write events in source statement order.  The
  `log_results` handler of `train_due_new_wb.py` unconditionally reads the
  undefined name `best_val_loss` at line 385, between its inefficiency-track
  and OOD-track blocks; the resulting NameError — raised on every epoch and
  terminating the ignite run — is modelled as the exception component of the
  wb step result, and the unreachable OOD-track block is modelled separately
  as dead code.
-/

namespace DUE

/-- FVal models a Python float as used by the metric logic: a finite rational,
one of the two infinities, or NaN. -/
inductive FVal where
  | fin : ℚ → FVal
  | posInf : FVal
  | negInf : FVal
  | nan : FVal
deriving DecidableEq, Repr

/-- isFinite is true exactly on finite values (mirrors `math.isfinite`). -/
def FVal.isFinite : FVal → Bool
  | FVal.fin _ => true
  | _ => false

/-- flt models the Python `<` comparison on floats: any comparison with NaN is
false, minus infinity is below every non-NaN value, plus infinity above. -/
def FVal.flt : FVal → FVal → Bool
  | FVal.nan, _ => false
  | _, FVal.nan => false
  | FVal.fin a, FVal.fin b => decide (a < b)
  | FVal.fin _, FVal.posInf => true
  | FVal.fin _, FVal.negInf => false
  | FVal.posInf, _ => false
  | FVal.negInf, FVal.negInf => false
  | FVal.negInf, _ => true

/-- fgt models the Python `>` comparison on floats. -/
def FVal.fgt (a b : FVal) : Bool := FVal.flt b a

/-- fge models the Python `>=` comparison on floats: any comparison with NaN
is false. -/
def FVal.fge : FVal → FVal → Bool
  | FVal.nan, _ => false
  | _, FVal.nan => false
  | FVal.fin a, FVal.fin b => decide (b ≤ a)
  | FVal.posInf, _ => true
  | FVal.negInf, FVal.negInf => true
  | FVal.negInf, _ => false
  | FVal.fin _, FVal.negInf => true
  | FVal.fin _, FVal.posInf => false

/-- CkptVal is one value stored under a key of a persisted checkpoint record:
a model state dict, an optimizer state dict, an optional likelihood state dict
(`None` in the SNGP variant), the epoch number, or a metric value. -/
inductive CkptVal where
  | modelState : ℕ → CkptVal
  | optimState : ℕ → CkptVal
  | likeState : Option ℕ → CkptVal
  | epochVal : ℕ → CkptVal
  | metricVal : FVal → CkptVal
deriving DecidableEq, Repr

/-- CkptRecord is the dictionary passed to `torch.save`, as the association
list of its keys in source order. -/
abbrev CkptRecord := List (String × CkptVal)

/-- getKey is dictionary lookup, first binding wins (Python dict literals in
the source never repeat a key). -/
def getKey (r : CkptRecord) (k : String) : Option CkptVal :=
  match r with
  | [] => none
  | p :: rest => if p.1 = k then some p.2 else getKey rest k

/-- wbIneffRecord is the dictionary built at `train_due_new_wb.py` lines
371-377: keys `model`, `optimizer`, `epoch`, `inefficiency`, `likelihood`
in that order, where the stored inefficiency is the just-updated best. -/
def wbIneffRecord (msd osd : ℕ) (epoch : ℕ) (best : FVal) (lsd : Option ℕ) :
    CkptRecord :=
  [("model", CkptVal.modelState msd),
   ("optimizer", CkptVal.optimState osd),
   ("epoch", CkptVal.epochVal epoch),
   ("inefficiency", CkptVal.metricVal best),
   ("likelihood", CkptVal.likeState lsd)]

/-- wbOodRecord is the dictionary built at `train_due_new_wb.py` lines
400-405: keys `model`, `optimizer`, `epoch`, `likelihood` — it stores no
metric value at all. -/
def wbOodRecord (msd osd : ℕ) (epoch : ℕ) (lsd : Option ℕ) : CkptRecord :=
  [("model", CkptVal.modelState msd),
   ("optimizer", CkptVal.optimState osd),
   ("epoch", CkptVal.epochVal epoch),
   ("likelihood", CkptVal.likeState lsd)]

/-- trainPyRecord is the dictionary built at `train.py` lines 173-178 inside
`save_best_metric`: keys `model`, `optimizer`, the metric name mapped to the
new best value, and `likelihood` — it stores no epoch number. -/
def trainPyRecord (msd osd : ℕ) (name : String) (best : FVal) (lsd : Option ℕ) :
    CkptRecord :=
  [("model", CkptVal.modelState msd),
   ("optimizer", CkptVal.optimState osd),
   (name, CkptVal.metricVal best),
   ("likelihood", CkptVal.likeState lsd)]

/-- Ev is an observable action of the checkpoint logic, in program order:
an assignment to a loop-level running-best variable, or a `torch.save` call
writing a record to one of the per-track checkpoint files. -/
inductive Ev where
  | updateBestIneff : FVal → Ev
  | writeIneffFile : CkptRecord → Ev
  | updateBestOod : FVal → FVal → Ev
  | writeOodFile : CkptRecord → Ev
  | updateBestAuroc : FVal → Ev
  | writeAurocFile : CkptRecord → Ev
deriving DecidableEq, Repr

/-- EpochData bundles what one completed epoch hands to the checkpoint logic:
the current model, optimizer and likelihood state dict identifiers, the epoch
number, and the three computed metrics. -/
structure EpochData where
  msd : ℕ
  osd : ℕ
  lsd : ℕ
  epoch : ℕ
  ineff : FVal
  auroc : FVal
  aupr : FVal
deriving DecidableEq, Repr

/-- WBSelState is the selection state of `train_due_new_wb.py`: the three
nonlocal running bests (lines 164-166) and the contents of the two checkpoint
files in the results directory (absent before the first write). -/
structure WBSelState where
  bestIneff : FVal
  bestAuroc : FVal
  bestAupr : FVal
  ineffFile : Option CkptRecord
  oodFile : Option CkptRecord
deriving DecidableEq, Repr

/-- wbInit is the initial selection state of `train_due_new_wb.py` lines
164-167: best inefficiency plus infinity, best AUROC and AUPR minus infinity,
no checkpoint file written yet. -/
def wbInit : WBSelState :=
  { bestIneff := FVal.posInf
    bestAuroc := FVal.negInf
    bestAupr := FVal.negInf
    ineffFile := none
    oodFile := none }

/-- nameErr is the exception message of the crash in `log_results`:
`train_due_new_wb.py` line 385 reads `best_val_loss` inside an unconditional
`wandb.log` call, and that name is never assigned anywhere in the script. -/
def nameErr : String := "NameError: name best_val_loss is not defined"

/-- wbEpochCkpt is the checkpoint section of the `log_results` handler of
`train_due_new_wb.py` (lines 367-414), as it actually executes.  First the
inefficiency track (lines 369-382): if the new inefficiency is strictly below
the running best (Python `<`), the nonlocal best is reassigned, the record is
built from the updated best, and the file is written.  Then the handler
reaches the `wandb.log` call at lines 384-393, whose dictionary reads the
undefined name `best_val_loss`, so it raises NameError there every epoch.
The OOD-track block at lines 396-414 is therefore unreachable (it is modelled
separately as wbOodBlock).  The inefficiency-track state changes made before
the raise persist, since the nonlocal assignment and the `torch.save` have
already happened.  The returned event list is in source statement order; the
third component is the exception the handler propagates. -/
def wbEpochCkpt (sngp : Bool) (d : EpochData) (st : WBSelState) :
    WBSelState × List Ev × Option String :=
  let lsd : Option ℕ := if sngp then none else some d.lsd
  let s :=
    if FVal.flt d.ineff st.bestIneff then
      let best := d.ineff
      let r := wbIneffRecord d.msd d.osd d.epoch best lsd
      ({ st with bestIneff := best, ineffFile := some r },
       [Ev.updateBestIneff best, Ev.writeIneffFile r])
    else (st, [])
  (s.1, s.2, some nameErr)

/-- wbOodBlock is the OOD-track block of `log_results`
(`train_due_new_wb.py` lines 396-414) exactly as written in the source: if
the AUROC and the AUPR are both `>=` their running bests, both bests are
reassigned and the OOD record is written.  This block is dead code — the
handler raises NameError at line 385 before reaching it (see wbEpochCkpt),
so it never executes in any run. -/
def wbOodBlock (sngp : Bool) (d : EpochData) (st : WBSelState) :
    WBSelState × List Ev :=
  let lsd : Option ℕ := if sngp then none else some d.lsd
  if FVal.fge d.auroc st.bestAuroc && FVal.fge d.aupr st.bestAupr then
    let r := wbOodRecord d.msd d.osd d.epoch lsd
    ({ st with bestAuroc := d.auroc, bestAupr := d.aupr, oodFile := some r },
     [Ev.updateBestOod d.auroc d.aupr, Ev.writeOodFile r])
  else (st, [])

/-- wbRun folds wbEpochCkpt over the epochs of a training run.  The handler
fires on `EPOCH_COMPLETED`; an exception it raises propagates out of the
ignite engine (no exception handler is registered in the script) and
terminates the run, so no later epoch executes after a raising one. -/
def wbRun (sngp : Bool) (ds : List EpochData) (st : WBSelState) :
    WBSelState × List Ev × Option String :=
  match ds with
  | [] => (st, [], none)
  | d :: rest =>
    match wbEpochCkpt sngp d st with
    | (st1, ev1, some e) => (st1, ev1, some e)
    | (st1, ev1, none) =>
      let r := wbRun sngp rest st1
      (r.1, ev1 ++ r.2.1, r.2.2)

/-- save_best_metric is the inner function of `train.py` lines 169-181: the
comparison is Python `>` for the metric named `auroc` and `<` otherwise; on
improvement the local best is rebound, the record is built and written, and
the (possibly updated) best is returned to the caller.  The second component
is the record written, if any. -/
def save_best_metric (sngp : Bool) (msd osd lsd : ℕ) (name : String)
    (value best : FVal) : FVal × Option CkptRecord :=
  let cmp := if name = "auroc" then FVal.fgt else FVal.flt
  if cmp value best then
    let best := value
    (best, some (trainPyRecord msd osd name best (if sngp then none else some lsd)))
  else (best, none)

/-- TPSelState is the selection state of `train.py`: the two loop-level
running bests (line 60; the AUPR best initialised there is never consulted
again) and the contents of the two per-track checkpoint files. -/
structure TPSelState where
  bestAuroc : FVal
  bestIneff : FVal
  aurocFile : Option CkptRecord
  ineffFile : Option CkptRecord
deriving DecidableEq, Repr

/-- tpInit is the initial selection state of `train.py` line 60. -/
def tpInit : TPSelState :=
  { bestAuroc := FVal.negInf
    bestIneff := FVal.posInf
    aurocFile := none
    ineffFile := none }

/-- tpEpochCkpt is the checkpoint tail of one `train.py` epoch (lines
182-183): `best_auroc = save_best_metric("auroc", auroc, best_auroc)` followed
by `best_inefficiency = save_best_metric("inefficiency", ...)`.  The write
happens inside `save_best_metric`, before the function returns; the loop-level
best variable is assigned from the return value afterwards, so each write
event precedes the corresponding update event.  The AUPR metric of the epoch
is never consulted. -/
def tpEpochCkpt (sngp : Bool) (d : EpochData) (st : TPSelState) :
    TPSelState × List Ev :=
  let r1 := save_best_metric sngp d.msd d.osd d.lsd "auroc" d.auroc st.bestAuroc
  let ev1 := (match r1.2 with
    | some r => [Ev.writeAurocFile r]
    | none => []) ++ [Ev.updateBestAuroc r1.1]
  let st1 := { st with
    bestAuroc := r1.1
    aurocFile := match r1.2 with | some r => some r | none => st.aurocFile }
  let r2 := save_best_metric sngp d.msd d.osd d.lsd "inefficiency" d.ineff st1.bestIneff
  let ev2 := (match r2.2 with
    | some r => [Ev.writeIneffFile r]
    | none => []) ++ [Ev.updateBestIneff r2.1]
  let st2 := { st1 with
    bestIneff := r2.1
    ineffFile := match r2.2 with | some r => some r | none => st1.ineffFile }
  (st2, ev1 ++ ev2)

/-- tpRun folds tpEpochCkpt over the epochs of a `train.py` run. -/
def tpRun (sngp : Bool) (ds : List EpochData) (st : TPSelState) :
    TPSelState × List Ev :=
  match ds with
  | [] => (st, [])
  | d :: rest =>
    let s1 := tpEpochCkpt sngp d st
    let s2 := tpRun sngp rest s1.1
    (s2.1, s1.2 ++ s2.2)

/-- c1State is a selection state after some earlier `train.py` epochs: both
running bests are finite. -/
def c1State : TPSelState :=
  { bestAuroc := FVal.fin 1
    bestIneff := FVal.fin 1
    aurocFile := none
    ineffFile := none }

/-- c1Data is an epoch in which the AUROC improves on its running best while
the AUPR does not improve on anything (it is the lowest possible score). -/
def c1Data : EpochData :=
  { msd := 5, osd := 6, lsd := 7, epoch := 3
    ineff := FVal.fin 1
    auroc := FVal.fin 2
    aupr := FVal.fin 0 }

/-- C1, counterexample: in `train.py`, an epoch in which only the AUROC (not
the AUPR) improves does write the OOD-track checkpoint file
`best_model_auroc.pth`, contradicting the conjunctive rule of the claim; the
write even happens identically when the AUPR of the epoch is NaN, because
`save_best_metric` never consults the AUPR. -/
theorem c1_counterexample :
    (tpEpochCkpt false c1Data c1State).1.aurocFile =
      some (trainPyRecord 5 6 "auroc" (FVal.fin 2) (some 7)) ∧
    (tpEpochCkpt false { c1Data with aupr := FVal.nan } c1State).1.aurocFile =
      some (trainPyRecord 5 6 "auroc" (FVal.fin 2) (some 7)) := by
  decide

/-- C1, amended: in `train_due_new_wb.py` the OOD-track checkpoint is never
written at all — in every epoch `log_results` raises NameError at line 385
(undefined `best_val_loss`) before reaching the OOD-track block, so the
conjunctive both-`>=` rule exists only in that dead code; and in `train.py`
the `auroc`-track checkpoint is written if and only if the AUROC is strictly
greater than its running best, with the AUPR playing no role at all. -/
theorem c1_ood_checkpoint_rule (sngp : Bool) (d : EpochData)
    (st st1 : WBSelState) (stp : TPSelState) :
    ((wbEpochCkpt sngp d st).1.oodFile = st.oodFile ∧
      (∀ r, Ev.writeOodFile r ∉ (wbEpochCkpt sngp d st).2.1) ∧
      (wbEpochCkpt sngp d st).2.2 = some nameErr) ∧
    ((∃ r, Ev.writeOodFile r ∈ (wbOodBlock sngp d st1).2) ↔
      (FVal.fge d.auroc st1.bestAuroc && FVal.fge d.aupr st1.bestAupr) = true) ∧
    ((∃ r, Ev.writeAurocFile r ∈ (tpEpochCkpt sngp d stp).2) ↔
      FVal.fgt d.auroc stp.bestAuroc = true) := by
  refine ⟨?_, ?_, ?_⟩
  · by_cases h1 : FVal.flt d.ineff st.bestIneff <;>
      simp [wbEpochCkpt, h1]
  · by_cases h2 : (FVal.fge d.auroc st1.bestAuroc && FVal.fge d.aupr st1.bestAupr) = true <;>
      simp [wbOodBlock, h2]
  · by_cases h3 : FVal.fgt d.auroc stp.bestAuroc <;>
      by_cases h4 : FVal.flt d.ineff stp.bestIneff <;>
      simp [tpEpochCkpt, save_best_metric, h3, h4]

/-- flt_irrefl states that the Python `<` comparison never holds between a
value and itself, also for the infinities and NaN. -/
theorem FVal.flt_irrefl (a : FVal) : FVal.flt a a = false := by
  cases a <;> simp [FVal.flt]

/-- c4Data is an epoch whose inefficiency strictly improves on the initial
best of `train.py`. -/
def c4Data : EpochData :=
  { msd := 11, osd := 12, lsd := 13, epoch := 4
    ineff := FVal.fin 2
    auroc := FVal.fin 0
    aupr := FVal.fin 0 }

/-- C4, counterexample: the record that `train.py` persists on an
inefficiency-improving epoch carries no `epoch` key at all, so the claimed
full record `{model, optimizer, likelihood?, epoch, metric}` is not what is
persisted there. -/
theorem c4_counterexample :
    (tpEpochCkpt false c4Data tpInit).1.ineffFile =
      some (trainPyRecord 11 12 "inefficiency" (FVal.fin 2) (some 13)) ∧
    getKey (trainPyRecord 11 12 "inefficiency" (FVal.fin 2) (some 13)) "epoch"
      = none := by
  decide

/-- C4, amended: on both scripts the inefficiency-track checkpoint is written
exactly when the new inefficiency is strictly below the stored best (Python
`<`, so an epoch whose inefficiency equals the stored best writes nothing and
leaves the state unchanged), and on that transition the in-memory best is
updated to the new inefficiency; the record persisted by
`train_due_new_wb.py` is `{model, optimizer, epoch, inefficiency,
likelihood}`, but the record persisted by `train.py` is only `{model,
optimizer, inefficiency, likelihood}`, without the epoch. -/
theorem c4_inefficiency_track (sngp : Bool) (d : EpochData)
    (st : WBSelState) (stp : TPSelState) :
    ((wbEpochCkpt sngp d st).1.bestIneff =
      (if FVal.flt d.ineff st.bestIneff then d.ineff else st.bestIneff)) ∧
    ((wbEpochCkpt sngp d st).1.ineffFile =
      (if FVal.flt d.ineff st.bestIneff then
        some (wbIneffRecord d.msd d.osd d.epoch d.ineff
          (if sngp then none else some d.lsd))
      else st.ineffFile)) ∧
    ((wbEpochCkpt sngp d { st with bestIneff := d.ineff }).1.ineffFile
      = st.ineffFile) ∧
    ((tpEpochCkpt sngp d stp).1.bestIneff =
      (if FVal.flt d.ineff stp.bestIneff then d.ineff else stp.bestIneff)) ∧
    ((tpEpochCkpt sngp d stp).1.ineffFile =
      (if FVal.flt d.ineff stp.bestIneff then
        some (trainPyRecord d.msd d.osd "inefficiency" d.ineff
          (if sngp then none else some d.lsd))
      else stp.ineffFile)) ∧
    ((tpEpochCkpt sngp d { stp with bestIneff := d.ineff }).1.ineffFile
      = stp.ineffFile) := by
  refine ⟨?_, ?_, ?_, ?_, ?_, ?_⟩
  · by_cases h1 : FVal.flt d.ineff st.bestIneff <;> simp [wbEpochCkpt, h1]
  · by_cases h1 : FVal.flt d.ineff st.bestIneff <;> simp [wbEpochCkpt, h1]
  · simp [wbEpochCkpt, FVal.flt_irrefl]
  · by_cases h3 : FVal.fgt d.auroc stp.bestAuroc <;>
      by_cases h4 : FVal.flt d.ineff stp.bestIneff <;>
      simp [tpEpochCkpt, save_best_metric, h3, h4]
  · by_cases h3 : FVal.fgt d.auroc stp.bestAuroc <;>
      by_cases h4 : FVal.flt d.ineff stp.bestIneff <;>
      simp [tpEpochCkpt, save_best_metric, h3, h4]
  · by_cases h3 : FVal.fgt d.auroc stp.bestAuroc <;>
      simp [tpEpochCkpt, save_best_metric, h3, FVal.flt_irrefl]

/-- reservedKeys lists the non-metric keys a checkpoint record may carry. -/
def reservedKeys : List String := ["model", "optimizer", "epoch", "likelihood"]

/-- isMetricVal recognises a stored metric value. -/
def isMetricVal : CkptVal → Bool
  | CkptVal.metricVal _ => true
  | _ => false

/-- hasMetricPair is true when the record carries at least one metric
name/value pair, i.e. a non-reserved key bound to a metric value. -/
def hasMetricPair (r : CkptRecord) : Bool :=
  r.any (fun p => !(reservedKeys.contains p.1) && isMetricVal p.2)

/-- hasEpochInt is true when the record carries the epoch number as an
integer under the key `epoch`. -/
def hasEpochInt (r : CkptRecord) : Bool :=
  match getKey r "epoch" with
  | some (CkptVal.epochVal _) => true
  | _ => false

/-- completeRecord is the record format the specification requires: model
state, optimizer state, integer epoch, and at least one metric name/value
pair (the likelihood entry is optional). -/
def completeRecord (r : CkptRecord) : Bool :=
  (getKey r "model").isSome && (getKey r "optimizer").isSome &&
    hasEpochInt r && hasMetricPair r

/-- c6Data is an epoch whose AUROC improves on the initial `train.py`
best. -/
def c6Data : EpochData :=
  { msd := 21, osd := 22, lsd := 23, epoch := 9
    ineff := FVal.posInf
    auroc := FVal.fin 1
    aupr := FVal.fin 1 }

/-- C6, counterexample: the record that `train.py` actually persists on an
AUROC-improving epoch carries no integer epoch, so not every persisted
checkpoint record contains the claimed minimum fields. -/
theorem c6_counterexample :
    (tpEpochCkpt false c6Data tpInit).1.aurocFile =
      some (trainPyRecord 21 22 "auroc" (FVal.fin 1) (some 23)) ∧
    hasEpochInt (trainPyRecord 21 22 "auroc" (FVal.fin 1) (some 23)) = false := by
  decide

/-- C6, amended: the records that are actually persisted are the
inefficiency-track record of `train_due_new_wb.py`, which does have the full
claimed shape (model state, optimizer state, integer epoch, one metric
name/value pair, optional likelihood), and the two `train.py` records, which
have model, optimizer, metric pair and likelihood but no epoch.  The
OOD-track record defined in `train_due_new_wb.py` would lack any metric pair
as well, but it is dead code: `log_results` raises at line 385 before the
OOD block, so that record is never persisted and the OOD file is never
touched. -/
theorem c6_record_shapes (msd osd ep : ℕ) (b : FVal) (lsd : Option ℕ)
    (sngp : Bool) (d : EpochData) (st : WBSelState) :
    completeRecord (wbIneffRecord msd osd ep b lsd) = true ∧
    (getKey (wbOodRecord msd osd ep lsd) "model" = some (CkptVal.modelState msd) ∧
      getKey (wbOodRecord msd osd ep lsd) "optimizer" = some (CkptVal.optimState osd) ∧
      hasEpochInt (wbOodRecord msd osd ep lsd) = true ∧
      hasMetricPair (wbOodRecord msd osd ep lsd) = false) ∧
    (wbEpochCkpt sngp d st).1.oodFile = st.oodFile ∧
    (getKey (trainPyRecord msd osd "auroc" b lsd) "model" = some (CkptVal.modelState msd) ∧
      getKey (trainPyRecord msd osd "auroc" b lsd) "optimizer" = some (CkptVal.optimState osd) ∧
      hasMetricPair (trainPyRecord msd osd "auroc" b lsd) = true ∧
      hasEpochInt (trainPyRecord msd osd "auroc" b lsd) = false) ∧
    (hasMetricPair (trainPyRecord msd osd "inefficiency" b lsd) = true ∧
      hasEpochInt (trainPyRecord msd osd "inefficiency" b lsd) = false) := by
  refine ⟨rfl, ⟨rfl, rfl, rfl, rfl⟩, ?_, ⟨rfl, rfl, rfl, rfl⟩, rfl, rfl⟩
  by_cases h1 : FVal.flt d.ineff st.bestIneff <;> simp [wbEpochCkpt, h1]

/-- flt_nan_right states that nothing is Python-less-than NaN. -/
theorem FVal.flt_nan_right (a : FVal) : FVal.flt a FVal.nan = false := by
  cases a <;> rfl

/-- fge_nan_right states that nothing is Python-greater-equal NaN. -/
theorem FVal.fge_nan_right (a : FVal) : FVal.fge a FVal.nan = false := by
  cases a <;> rfl

/-- c5NanData is an epoch all of whose computed metrics are NaN. -/
def c5NanData : EpochData :=
  { msd := 41, osd := 42, lsd := 43, epoch := 1
    ineff := FVal.nan, auroc := FVal.nan, aupr := FVal.nan }

/-- c5GoodData is a following epoch with finite metrics. -/
def c5GoodData : EpochData :=
  { msd := 44, osd := 45, lsd := 46, epoch := 2
    ineff := FVal.fin 3, auroc := FVal.fin 1, aupr := FVal.fin 1 }

/-- C5, counterexample: a `train.py` run whose first epoch produces only NaN
metrics is not aborted — the next epoch is still processed and writes both
checkpoints — and the NaN epoch itself is silently absorbed: the NaN values
are fed to the best-model comparisons, every comparison returns false, and
the state is left unchanged. -/
theorem c5_counterexample :
    (tpRun false [c5NanData, c5GoodData] tpInit).1 =
      { bestAuroc := FVal.fin 1
        bestIneff := FVal.fin 3
        aurocFile := some (trainPyRecord 44 45 "auroc" (FVal.fin 1) (some 46))
        ineffFile :=
          some (trainPyRecord 44 45 "inefficiency" (FVal.fin 3) (some 46)) } ∧
    (tpRun false [c5NanData] tpInit).1 = tpInit := by
  decide

/-- C5, amended: neither script checks metrics for finiteness.  In
`train.py` an epoch with NaN AUROC or NaN inefficiency never triggers the
corresponding write, leaves the stored best unchanged (every Python
comparison involving NaN is false), and the run simply continues with the
next epoch instead of aborting.  In `train_due_new_wb.py` a NaN inefficiency
is likewise silently fed into the inefficiency comparison and changes
nothing; the handler then raises, but it raises the NameError of line 385 on
every epoch — finite metrics or not — so the abort is not a detection of the
non-finite metric, and the OOD comparisons never execute at all. -/
theorem c5_nan_not_detected (sngp : Bool) (d : EpochData) (st : WBSelState)
    (stp : TPSelState) (rest : List EpochData) :
    (d.auroc = FVal.nan →
      (tpEpochCkpt sngp d stp).1.bestAuroc = stp.bestAuroc ∧
      (tpEpochCkpt sngp d stp).1.aurocFile = stp.aurocFile) ∧
    (d.ineff = FVal.nan →
      (tpEpochCkpt sngp d stp).1.bestIneff = stp.bestIneff ∧
      (tpEpochCkpt sngp d stp).1.ineffFile = stp.ineffFile) ∧
    (tpRun sngp (d :: rest) stp).1 =
      (tpRun sngp rest (tpEpochCkpt sngp d stp).1).1 ∧
    (d.ineff = FVal.nan → (wbEpochCkpt sngp d st).1 = st) ∧
    (wbEpochCkpt sngp d st).2.2 = some nameErr := by
  refine ⟨?_, ?_, rfl, ?_, rfl⟩
  · intro hn
    have hc : FVal.fgt d.auroc stp.bestAuroc = false := by
      rw [FVal.fgt, hn]; exact FVal.flt_nan_right _
    by_cases h4 : FVal.flt d.ineff stp.bestIneff <;>
      simp [tpEpochCkpt, save_best_metric, hc, h4]
  · intro hn
    by_cases h3 : FVal.fgt d.auroc stp.bestAuroc <;>
      simp [tpEpochCkpt, save_best_metric, hn, FVal.flt, h3]
  · intro hn
    simp [wbEpochCkpt, hn, FVal.flt]

/-- c5_nan_witness instantiates c5_nan_not_detected on the concrete NaN epoch
and the initial states of both scripts. -/
theorem c5_nan_witness :
    c5NanData.ineff = FVal.nan ∧
    (tpEpochCkpt false c5NanData tpInit).1.ineffFile = tpInit.ineffFile ∧
    (tpRun false (c5NanData :: [c5GoodData]) tpInit).1 =
      (tpRun false [c5GoodData] (tpEpochCkpt false c5NanData tpInit).1).1 ∧
    (wbEpochCkpt false c5NanData wbInit).1 = wbInit ∧
    (wbEpochCkpt false c5NanData wbInit).2.2 = some nameErr := by
  have h := c5_nan_not_detected false c5NanData wbInit tpInit [c5GoodData]
  exact ⟨rfl, (h.2.1 rfl).2, h.2.2.1, h.2.2.2.1 rfl, h.2.2.2.2⟩

/-- updPrecedesIneffWrite says every inefficiency-file write in the event
list is preceded by an assignment to the running best inefficiency. -/
def updPrecedesIneffWrite (evs : List Ev) : Prop :=
  ∀ n r, evs.get? n = some (Ev.writeIneffFile r) →
    ∃ m v, m < n ∧ evs.get? m = some (Ev.updateBestIneff v)

/-- updPrecedesOodWrite says every OOD-file write in the event list is
preceded by an assignment to the running best AUROC/AUPR pair. -/
def updPrecedesOodWrite (evs : List Ev) : Prop :=
  ∀ n r, evs.get? n = some (Ev.writeOodFile r) →
    ∃ m a p, m < n ∧ evs.get? m = some (Ev.updateBestOod a p)

/-- updPrecedesAurocWrite says every auroc-file write in the event list is
preceded by an assignment to the loop-level best AUROC of `train.py`. -/
def updPrecedesAurocWrite (evs : List Ev) : Prop :=
  ∀ n r, evs.get? n = some (Ev.writeAurocFile r) →
    ∃ m v, m < n ∧ evs.get? m = some (Ev.updateBestAuroc v)

/-- aurocWriteBeforeUpd says every auroc-file write is followed (strictly
later in program order) by the assignment to the loop-level best AUROC. -/
def aurocWriteBeforeUpd (evs : List Ev) : Prop :=
  ∀ n r, evs.get? n = some (Ev.writeAurocFile r) →
    ∃ m v, n < m ∧ evs.get? m = some (Ev.updateBestAuroc v)

/-- ineffWriteBeforeUpd says every inefficiency-file write is followed by the
assignment to the loop-level best inefficiency. -/
def ineffWriteBeforeUpd (evs : List Ev) : Prop :=
  ∀ n r, evs.get? n = some (Ev.writeIneffFile r) →
    ∃ m v, n < m ∧ evs.get? m = some (Ev.updateBestIneff v)

/-- c8State is a selection state of `train.py` with finite running bests. -/
def c8State : TPSelState :=
  { bestAuroc := FVal.fin 1
    bestIneff := FVal.fin 1
    aurocFile := none
    ineffFile := none }

/-- c8Data is an epoch that triggers the auroc-track checkpoint of
`train.py`. -/
def c8Data : EpochData :=
  { msd := 51, osd := 52, lsd := 53, epoch := 6
    ineff := FVal.fin 2
    auroc := FVal.fin 2
    aupr := FVal.fin 0 }

/-- C8, counterexample: in `train.py` the checkpoint write happens inside
`save_best_metric`, and the loop-level best variable is only assigned from
the return value after the (synchronous) write has completed, so on this
checkpoint-triggering epoch the write precedes the in-memory best update,
contradicting the claimed order. -/
theorem c8_counterexample :
    (tpEpochCkpt false c8Data c8State).2 =
      [Ev.writeAurocFile (trainPyRecord 51 52 "auroc" (FVal.fin 2) (some 53)),
       Ev.updateBestAuroc (FVal.fin 2),
       Ev.updateBestIneff (FVal.fin 1)] ∧
    ¬ updPrecedesAurocWrite (tpEpochCkpt false c8Data c8State).2 := by
  refine ⟨by decide, ?_⟩
  intro h
  obtain ⟨m, v, hm, _⟩ :=
    h 0 (trainPyRecord 51 52 "auroc" (FVal.fin 2) (some 53)) (by decide)
  omega

/-- C8, amended: in `train_due_new_wb.py` every write is preceded by the
corresponding in-memory best update — the inefficiency track assigns the
nonlocal best at line 370 before the `torch.save` at line 380, and the OOD
track performs no writes at all (it is unreachable, so the ordering
requirement is vacuous there); in `train.py`, however, the loop-level best
variables are reassigned only from the return value of `save_best_metric`,
after the synchronous write has completed, on both tracks. -/
theorem c8_update_write_order (sngp : Bool) (d : EpochData)
    (st : WBSelState) (stp : TPSelState) :
    updPrecedesIneffWrite (wbEpochCkpt sngp d st).2.1 ∧
    updPrecedesOodWrite (wbEpochCkpt sngp d st).2.1 ∧
    aurocWriteBeforeUpd (tpEpochCkpt sngp d stp).2 ∧
    ineffWriteBeforeUpd (tpEpochCkpt sngp d stp).2 := by
  refine ⟨?_, ?_, ?_, ?_⟩
  · by_cases h1 : FVal.flt d.ineff st.bestIneff <;>
      simp only [wbEpochCkpt, h1, if_true, if_false, Bool.false_eq_true,
        ite_true, ite_false] <;>
      intro n r h <;>
      match n with
      | 0 => simp_all
      | 1 => first
        | exact ⟨0, d.ineff, Nat.zero_lt_one, rfl⟩
        | simp_all
      | n + 2 => simp_all [List.get?]
  · by_cases h1 : FVal.flt d.ineff st.bestIneff <;>
      simp only [wbEpochCkpt, h1, if_true, if_false, Bool.false_eq_true,
        ite_true, ite_false] <;>
      intro n r h <;>
      match n with
      | 0 => simp_all
      | 1 => simp_all
      | n + 2 => simp_all [List.get?]
  · by_cases h3 : FVal.fgt d.auroc stp.bestAuroc <;>
      by_cases h4 : FVal.flt d.ineff stp.bestIneff <;>
      simp only [tpEpochCkpt, save_best_metric, h3, h4, if_true, if_false,
        Bool.false_eq_true, ite_true, ite_false, List.nil_append,
        List.append_nil, reduceIte] <;>
      intro n r h <;>
      match n with
      | 0 => first
        | exact ⟨1, d.auroc, Nat.zero_lt_one, rfl⟩
        | simp_all
      | 1 => simp_all
      | 2 => simp_all
      | 3 => simp_all
      | n + 4 => simp_all [List.get?]
  · by_cases h3 : FVal.fgt d.auroc stp.bestAuroc <;>
      by_cases h4 : FVal.flt d.ineff stp.bestIneff <;>
      simp only [tpEpochCkpt, save_best_metric, h3, h4, if_true, if_false,
        Bool.false_eq_true, ite_true, ite_false, List.nil_append,
        List.append_nil, reduceIte] <;>
      intro n r h <;>
      match n with
      | 0 => simp_all
      | 1 => first
        | exact ⟨2, d.ineff, by omega, rfl⟩
        | (simp_all
           try exact ⟨2, by omega, d.ineff, rfl⟩)
      | 2 => first
        | exact ⟨3, d.ineff, by omega, rfl⟩
        | (simp_all
           try exact ⟨3, by omega, d.ineff, rfl⟩)
      | 3 => simp_all
      | n + 4 => simp_all [List.get?]

/-- Machine is the in-memory mutable model state the scripts load checkpoints
into: the current model state dict, optimizer state dict, and likelihood
state dict (none in the SNGP variant, where `likelihood` is `None`). -/
structure Machine where
  msd : ℕ
  osd : ℕ
  lsd : Option ℕ
deriving DecidableEq, Repr

/-- LoadOp is one observable `load_state_dict` call together with the strict
flag it was issued with. -/
inductive LoadOp where
  | loadModel : Bool → ℕ → LoadOp
  | loadLikelihood : Bool → ℕ → LoadOp
deriving DecidableEq, Repr

/-- recModel extracts the model state stored under the key `model`. -/
def recModel (r : CkptRecord) : Option ℕ :=
  match getKey r "model" with
  | some (CkptVal.modelState n) => some n
  | _ => none

/-- recLike extracts the likelihood entry stored under the key
`likelihood`. -/
def recLike (r : CkptRecord) : Option (Option ℕ) :=
  match getKey r "likelihood" with
  | some (CkptVal.likeState v) => some v
  | _ => none

/-- loadCkpt is the shared shape of both restore routines: `torch.load` the
record, `model.load_state_dict(state[&quot;model&quot;], strict=modelStrict)`, and,
only when not in the SNGP variant, a strict
`likelihood.load_state_dict(state[&quot;likelihood&quot;])`.  The optimizer entry of
the record is never read and the in-memory optimizer state is never touched.
A missing key raises (KeyError), and calling `load_state_dict` on a `None`
likelihood raises, exactly as in Python. -/
def loadCkpt (modelStrict sngp : Bool) (r : CkptRecord) (m : Machine) :
    Except String (Machine × List LoadOp) :=
  match recModel r with
  | none => Except.error "KeyError: model"
  | some sd =>
    let m1 : Machine := { m with msd := sd }
    let ops1 := [LoadOp.loadModel modelStrict sd]
    if sngp then Except.ok (m1, ops1)
    else
      match recLike r with
      | none => Except.error "KeyError: likelihood"
      | some none => Except.error "load_state_dict called on None likelihood"
      | some (some l) =>
        Except.ok ({ m1 with lsd := some l }, ops1 ++ [LoadOp.loadLikelihood true l])

/-- load_best_state is `train.py` lines 185-188: the model is restored with
`strict=False`, the likelihood strictly and only when not SNGP, and the
optimizer not at all. -/
def load_best_state (sngp : Bool) (r : CkptRecord) (m : Machine) :
    Except String (Machine × List LoadOp) :=
  loadCkpt false sngp r m

/-- wbLoadCkpt is the restore used inside
`compute_test_loss_at_last_epoch` of `train_due_new_wb.py` (lines 424-426 and
434-436): the model is restored with the default `strict=True`, the
likelihood strictly and only when not SNGP, and the optimizer not at all. -/
def wbLoadCkpt (sngp : Bool) (r : CkptRecord) (m : Machine) :
    Except String (Machine × List LoadOp) :=
  loadCkpt true sngp r m

/-- c7Record is a persisted `train.py` checkpoint record whose optimizer
entry differs from the optimizer state of the machine it is loaded into. -/
def c7Record : CkptRecord := trainPyRecord 61 62 "auroc" (FVal.fin 1) (some 63)

/-- c7Machine is an in-memory state before the restore. -/
def c7Machine : Machine := { msd := 1, osd := 2, lsd := some 3 }

/-- C7, counterexample: restoring c7Record leaves the in-memory optimizer
state at 2 even though the record stores optimizer state 62, so `load` does
not reconstruct the optimizer; and the `train_due_new_wb.py` restore issues
its model `load_state_dict` with `strict=True`, so that restoration is not
non-strict either. -/
theorem c7_counterexample :
    load_best_state false c7Record c7Machine =
      Except.ok ({ msd := 61, osd := 2, lsd := some 63 },
        [LoadOp.loadModel false 61, LoadOp.loadLikelihood true 63]) ∧
    getKey c7Record "optimizer" = some (CkptVal.optimState 62) ∧
    wbLoadCkpt false c7Record c7Machine =
      Except.ok ({ msd := 61, osd := 2, lsd := some 63 },
        [LoadOp.loadModel true 61, LoadOp.loadLikelihood true 63]) :=
  ⟨rfl, rfl, rfl⟩

/-- C7, amended: on success both restore routines set the in-memory model
state to the model entry of the record and never touch the optimizer state;
`train.py` issues the model load with `strict=False` while
`train_due_new_wb.py` issues it with `strict=True`; the likelihood is
restored strictly and only in the non-SNGP variant; and in the SNGP variant
the likelihood entry of the record is never read, so the restore succeeds for
every record that has a model entry, regardless of its likelihood entry
(including the score-function-only records that store `None` there). -/
theorem c7_load_semantics (modelStrict sngp : Bool) (r : CkptRecord)
    (m m2 : Machine) (ops : List LoadOp)
    (h : loadCkpt modelStrict sngp r m = Except.ok (m2, ops)) (sd : ℕ)
    (hsd : recModel r = some sd) :
    (m2.osd = m.osd ∧ m2.msd = sd) ∧
    (sngp = true → m2.lsd = m.lsd ∧ ops = [LoadOp.loadModel modelStrict sd]) ∧
    (sngp = false → ∃ l, recLike r = some (some l) ∧ m2.lsd = some l ∧
      ops = [LoadOp.loadModel modelStrict sd, LoadOp.loadLikelihood true l]) ∧
    (∀ mx : Machine, sngp = true →
      loadCkpt modelStrict true r mx = Except.ok ({ mx with msd := sd },
        [LoadOp.loadModel modelStrict sd])) := by
  cases sngp
  · rcases hl : recLike r with _ | lv
    · rw [loadCkpt, hsd] at h
      simp [hl] at h
    · rcases lv with _ | l
      · rw [loadCkpt, hsd] at h
        simp [hl] at h
      · rw [loadCkpt, hsd] at h
        simp only [Bool.false_eq_true, if_false, ite_false, hl,
          Except.ok.injEq, Prod.mk.injEq] at h
        obtain ⟨hm, hops⟩ := h
        subst hm
        subst hops
        refine ⟨⟨rfl, rfl⟩, by simp, ?_, by simp⟩
        intro _
        exact ⟨l, rfl, rfl, rfl⟩
  · rw [loadCkpt, hsd] at h
    simp only [if_true, ite_true, Except.ok.injEq, Prod.mk.injEq] at h
    obtain ⟨hm, hops⟩ := h
    subst hm
    subst hops
    refine ⟨⟨rfl, rfl⟩, fun _ => ⟨rfl, rfl⟩, by simp, ?_⟩
    intro mx _
    rw [loadCkpt, hsd]
    rfl

/-- c7_load_witness instantiates c7_load_semantics on the concrete record and
machine of the counterexample setup, in the non-SNGP variant. -/
theorem c7_load_witness :
    ({ msd := 61, osd := 2, lsd := some 63 } : Machine).osd = c7Machine.osd ∧
    ({ msd := 61, osd := 2, lsd := some 63 } : Machine).msd = 61 ∧
    (∃ l, recLike c7Record = some (some l) ∧
      ({ msd := 61, osd := 2, lsd := some 63 } : Machine).lsd = some l ∧
      [LoadOp.loadModel false 61, LoadOp.loadLikelihood true 63]
        = [LoadOp.loadModel false 61, LoadOp.loadLikelihood true l]) := by
  have h := c7_load_semantics false false c7Record c7Machine
    { msd := 61, osd := 2, lsd := some 63 }
    [LoadOp.loadModel false 61, LoadOp.loadLikelihood true 63]
    rfl 61 rfl
  obtain ⟨⟨h1, h2⟩, _, h3, _⟩ := h
  obtain ⟨l, hl, hlsd, hops⟩ := h3 rfl
  exact ⟨h1, h2, l, hl, hlsd, hops⟩

/-- Loads says the `train_due_new_wb.py` end-of-training reload succeeds on
this record, whatever the in-memory state is at that point. -/
def Loads (sngp : Bool) (r : CkptRecord) : Prop :=
  ∀ m : Machine, ∃ out, wbLoadCkpt sngp r m = Except.ok out

/-- LoadsTP says the `train.py` end-of-training reload succeeds on this
record, whatever the in-memory state is at that point. -/
def LoadsTP (sngp : Bool) (r : CkptRecord) : Prop :=
  ∀ m : Machine, ∃ out, load_best_state sngp r m = Except.ok out

/-- GoodFileTP says the checkpoint file exists and its record reloads
successfully in `train.py`. -/
def GoodFileTP (sngp : Bool) (f : Option CkptRecord) : Prop :=
  ∃ r, f = some r ∧ LoadsTP sngp r

/-- loads_wbIneffRecord: every record the wb inefficiency track persists
reloads successfully. -/
theorem loads_wbIneffRecord (sngp : Bool) (msd osd ep : ℕ) (b : FVal) (l : ℕ) :
    Loads sngp (wbIneffRecord msd osd ep b (if sngp then none else some l)) := by
  intro m
  cases sngp
  · exact ⟨_, rfl⟩
  · exact ⟨_, rfl⟩

/-- loadsTP_auroc: every record the `train.py` auroc track persists reloads
successfully. -/
theorem loadsTP_auroc (sngp : Bool) (msd osd : ℕ) (b : FVal) (l : ℕ) :
    LoadsTP sngp (trainPyRecord msd osd "auroc" b (if sngp then none else some l)) := by
  intro m
  cases sngp
  · exact ⟨_, rfl⟩
  · exact ⟨_, rfl⟩

/-- loadsTP_ineff: every record the `train.py` inefficiency track persists
reloads successfully. -/
theorem loadsTP_ineff (sngp : Bool) (msd osd : ℕ) (b : FVal) (l : ℕ) :
    LoadsTP sngp (trainPyRecord msd osd "inefficiency" b (if sngp then none else some l)) := by
  intro m
  cases sngp
  · exact ⟨_, rfl⟩
  · exact ⟨_, rfl⟩

/-- tpEpochCkpt_goodFiles: one `train.py` epoch preserves (or establishes)
existence and loadability of both checkpoint files. -/
theorem tpEpochCkpt_goodFiles (sngp : Bool) (d : EpochData) (st : TPSelState)
    (h1 : GoodFileTP sngp st.aurocFile) (h2 : GoodFileTP sngp st.ineffFile) :
    GoodFileTP sngp (tpEpochCkpt sngp d st).1.aurocFile ∧
    GoodFileTP sngp (tpEpochCkpt sngp d st).1.ineffFile := by
  by_cases hc1 : FVal.fgt d.auroc st.bestAuroc <;>
    by_cases hc2 : FVal.flt d.ineff st.bestIneff <;>
    simp [tpEpochCkpt, save_best_metric, hc1, hc2] <;>
    refine ⟨?_, ?_⟩ <;>
    first
      | exact ⟨_, rfl, loadsTP_auroc sngp d.msd d.osd d.auroc d.lsd⟩
      | exact ⟨_, rfl, loadsTP_ineff sngp d.msd d.osd d.ineff d.lsd⟩
      | exact h1
      | exact h2

/-- tpRun_goodFiles: a `train.py` run preserves existence and loadability of
both checkpoint files across all remaining epochs. -/
theorem tpRun_goodFiles (sngp : Bool) (ds : List EpochData) (st : TPSelState)
    (h1 : GoodFileTP sngp st.aurocFile) (h2 : GoodFileTP sngp st.ineffFile) :
    GoodFileTP sngp (tpRun sngp ds st).1.aurocFile ∧
    GoodFileTP sngp (tpRun sngp ds st).1.ineffFile := by
  induction ds generalizing st with
  | nil => exact ⟨h1, h2⟩
  | cons d rest ih =>
    obtain ⟨g1, g2⟩ := tpEpochCkpt_goodFiles sngp d st h1 h2
    exact ih (tpEpochCkpt sngp d st).1 g1 g2

/-- firstEpoch_writes: from the initial states (best inefficiency plus
infinity, best AUROC and AUPR minus infinity), an epoch with finite metrics
triggers the checkpoint write on both `train.py` tracks and on the wb
inefficiency track; the wb OOD file stays unwritten, because the handler
raises before its block. -/
theorem firstEpoch_writes (sngp : Bool) (d : EpochData)
    (hi : d.ineff.isFinite = true) (ha : d.auroc.isFinite = true)
    (hp : d.aupr.isFinite = true) :
    (wbEpochCkpt sngp d wbInit).1.ineffFile =
      some (wbIneffRecord d.msd d.osd d.epoch d.ineff (if sngp then none else some d.lsd)) ∧
    (wbEpochCkpt sngp d wbInit).1.oodFile = none ∧
    (tpEpochCkpt sngp d tpInit).1.aurocFile =
      some (trainPyRecord d.msd d.osd "auroc" d.auroc (if sngp then none else some d.lsd)) ∧
    (tpEpochCkpt sngp d tpInit).1.ineffFile =
      some (trainPyRecord d.msd d.osd "inefficiency" d.ineff (if sngp then none else some d.lsd)) := by
  obtain ⟨msd, osd, lsd, ep, ineff, auroc, aupr⟩ := d
  rcases ineff with qi | _ | _ | _ <;>
    [skip; exact absurd hi (by simp [FVal.isFinite]);
     exact absurd hi (by simp [FVal.isFinite]);
     exact absurd hi (by simp [FVal.isFinite])]
  rcases auroc with qa | _ | _ | _ <;>
    [skip; exact absurd ha (by simp [FVal.isFinite]);
     exact absurd ha (by simp [FVal.isFinite]);
     exact absurd ha (by simp [FVal.isFinite])]
  rcases aupr with qp | _ | _ | _ <;>
    [skip; exact absurd hp (by simp [FVal.isFinite]);
     exact absurd hp (by simp [FVal.isFinite]);
     exact absurd hp (by simp [FVal.isFinite])]
  refine ⟨?_, ?_, ?_, ?_⟩ <;>
    simp [wbEpochCkpt, tpEpochCkpt, save_best_metric, wbInit, tpInit,
      FVal.flt, FVal.fge, FVal.fgt]

/-- c9Data is a first epoch with finite metrics. -/
def c9Data : EpochData :=
  { msd := 71, osd := 72, lsd := 73, epoch := 1
    ineff := FVal.fin 4, auroc := FVal.fin 1, aupr := FVal.fin 1 }

/-- c9Data2 is a second epoch with even better finite metrics. -/
def c9Data2 : EpochData :=
  { msd := 74, osd := 75, lsd := 76, epoch := 2
    ineff := FVal.fin 2, auroc := FVal.fin 2, aupr := FVal.fin 2 }

/-- C9, counterexample: in `train_due_new_wb.py` the first epoch with finite
metrics does not write a checkpoint on both tracks — the OOD file stays
unwritten because `log_results` raises NameError at line 385 before the OOD
block — and the run aborts during that first epoch, so the second epoch
(whose metrics would beat every best) never executes and the end-of-training
reload never fires. -/
theorem c9_counterexample :
    c9Data.ineff.isFinite = true ∧ c9Data.auroc.isFinite = true ∧
    c9Data.aupr.isFinite = true ∧
    (wbEpochCkpt false c9Data wbInit).1.oodFile = none ∧
    (wbRun false [c9Data, c9Data2] wbInit).2.2 = some nameErr ∧
    (wbRun false [c9Data, c9Data2] wbInit).1 =
      (wbEpochCkpt false c9Data wbInit).1 := by
  decide

/-- C9, amended: in `train.py` the claim holds — the running bests start at
plus infinity (inefficiency) and minus infinity (AUROC), the first epoch with
finite metrics writes a checkpoint on both tracks, and for every run starting
with such an epoch the end-of-training reload of each track finds a
previously written file and loads it successfully.  In `train_due_new_wb.py`
only the inefficiency-track checkpoint is written in that first epoch (the
OOD block is unreachable), and the run aborts with the NameError of line 385
during epoch one, so the `Events.COMPLETED` reload never fires; the
inefficiency record itself would reload successfully. -/
theorem c9_first_epoch_checkpoint (sngp : Bool) (d : EpochData)
    (rest : List EpochData) (hi : d.ineff.isFinite = true)
    (ha : d.auroc.isFinite = true) (hp : d.aupr.isFinite = true) :
    (∃ r, (tpEpochCkpt sngp d tpInit).1.aurocFile = some r) ∧
    (∃ r, (tpEpochCkpt sngp d tpInit).1.ineffFile = some r) ∧
    GoodFileTP sngp (tpRun sngp (d :: rest) tpInit).1.aurocFile ∧
    GoodFileTP sngp (tpRun sngp (d :: rest) tpInit).1.ineffFile ∧
    (wbEpochCkpt sngp d wbInit).1.ineffFile =
      some (wbIneffRecord d.msd d.osd d.epoch d.ineff
        (if sngp then none else some d.lsd)) ∧
    (wbEpochCkpt sngp d wbInit).1.oodFile = none ∧
    (wbRun sngp (d :: rest) wbInit).2.2 = some nameErr ∧
    (wbRun sngp (d :: rest) wbInit).1 = (wbEpochCkpt sngp d wbInit).1 ∧
    Loads sngp (wbIneffRecord d.msd d.osd d.epoch d.ineff
      (if sngp then none else some d.lsd)) := by
  obtain ⟨w1, w2, w3, w4⟩ := firstEpoch_writes sngp d hi ha hp
  have g3 : GoodFileTP sngp (tpEpochCkpt sngp d tpInit).1.aurocFile :=
    ⟨_, w3, loadsTP_auroc sngp d.msd d.osd d.auroc d.lsd⟩
  have g4 : GoodFileTP sngp (tpEpochCkpt sngp d tpInit).1.ineffFile :=
    ⟨_, w4, loadsTP_ineff sngp d.msd d.osd d.ineff d.lsd⟩
  obtain ⟨f3, f4⟩ := tpRun_goodFiles sngp rest (tpEpochCkpt sngp d tpInit).1 g3 g4
  exact ⟨⟨_, w3⟩, ⟨_, w4⟩, f3, f4, w1, w2, rfl, rfl,
    loads_wbIneffRecord sngp d.msd d.osd d.epoch d.ineff d.lsd⟩

/-- c9_witness instantiates c9_first_epoch_checkpoint on a concrete
one-epoch run with finite metrics. -/
theorem c9_witness :
    c9Data.ineff.isFinite = true ∧ c9Data.auroc.isFinite = true ∧
    c9Data.aupr.isFinite = true ∧
    (∃ r, (tpRun false [c9Data] tpInit).1.aurocFile = some r) ∧
    (∃ r, (tpRun false [c9Data] tpInit).1.ineffFile = some r) ∧
    (wbRun false [c9Data] wbInit).1.ineffFile =
      some (wbIneffRecord 71 72 1 (FVal.fin 4) (some 73)) ∧
    (wbRun false [c9Data] wbInit).2.2 = some nameErr := by
  obtain ⟨-, -, ⟨r3, hr3, -⟩, ⟨r4, hr4, -⟩, w1, -, herr, hst, -⟩ :=
    c9_first_epoch_checkpoint false c9Data [] rfl rfl rfl
  refine ⟨rfl, rfl, rfl, ⟨r3, hr3⟩, ⟨r4, hr4⟩, ?_, herr⟩
  rw [hst]
  exact w1

/-- TPFinalResult is the `result` mapping assembled at the end of
`train.py` (lines 198-205). -/
structure TPFinalResult where
  auroc : FVal
  aupr : FVal
  loss : FVal
  acc : FVal
  coverage : FVal
  ineff : FVal
  covMean : FVal
deriving DecidableEq, Repr

/-- trainPyEpilogue is the tail of `train.py` main (lines 185-205):
`load_best_state("auroc")`, evaluate the OOD metrics on the now-current
model, `load_best_state("inefficiency")`, evaluate test loss/accuracy and
the conformal coverage/inefficiency on the now-current model, and finally
`conformal_evaluate` on the same model.  The metric evaluators are abstract
functions of the current model and likelihood state identifiers, since their
numeric content is external to the selection logic. -/
def trainPyEpilogue (sngp : Bool) (aurocR ineffR : CkptRecord) (endM : Machine)
    (evalOOD : ℕ → Option ℕ → FVal × FVal)
    (evalTest : ℕ → Option ℕ → FVal × FVal × FVal × FVal)
    (confEval : ℕ → Option ℕ → FVal) : Except String TPFinalResult :=
  match load_best_state sngp aurocR endM with
  | Except.error e => Except.error e
  | Except.ok (m1, _) =>
    let ood := evalOOD m1.msd m1.lsd
    match load_best_state sngp ineffR m1 with
    | Except.error e => Except.error e
    | Except.ok (m2, _) =>
      let t := evalTest m2.msd m2.lsd
      let cm := confEval m2.msd m2.lsd
      Except.ok { auroc := ood.1, aupr := ood.2, loss := t.1, acc := t.2.1,
                  coverage := t.2.2.1, ineff := t.2.2.2, covMean := cm }

/-- WBFinalResult is the `results_to_save` mapping assembled by
`compute_test_loss_at_last_epoch` in `train_due_new_wb.py`. -/
structure WBFinalResult where
  testAcc : FVal
  testLoss : FVal
  ineff : FVal
  auroc : FVal
  aupr : FVal
  covMean : FVal
deriving DecidableEq, Repr

/-- wbCompleted is the `Events.COMPLETED` handler of `train_due_new_wb.py`
(lines 419-504): reload the inefficiency checkpoint into the model, deep-copy
and reload the OOD checkpoint into the copy, evaluate test
accuracy/loss/inefficiency on the inefficiency-loaded model, evaluate
AUROC/AUPR on the OOD-loaded copy, and run `conformal_evaluate` on the
inefficiency-loaded model. -/
def wbCompleted (sngp : Bool) (ineffR oodR : CkptRecord) (endM : Machine)
    (evalTest : ℕ → Option ℕ → FVal × FVal × FVal)
    (evalOOD : ℕ → Option ℕ → FVal × FVal)
    (confEval : ℕ → Option ℕ → FVal) : Except String WBFinalResult :=
  match wbLoadCkpt sngp ineffR endM with
  | Except.error e => Except.error e
  | Except.ok (m1, _) =>
    match wbLoadCkpt sngp oodR m1 with
    | Except.error e => Except.error e
    | Except.ok (mo, _) =>
      let t := evalTest m1.msd m1.lsd
      let ood := evalOOD mo.msd mo.lsd
      let cm := confEval m1.msd m1.lsd
      Except.ok { testAcc := t.1, testLoss := t.2.1, ineff := t.2.2,
                  auroc := ood.1, aupr := ood.2, covMean := cm }

/-- C3: in both scripts, all final reported test metrics are evaluated on
freshly reloaded checkpoint states: the OOD metrics on the model restored
from the auroc/OOD-track record, and test loss, accuracy, coverage and
inefficiency on the model restored from the inefficiency-track record.
Consequently the reported result is entirely independent of the in-memory
model state left by the last training epoch (in the SNGP variant the
likelihood is `None` throughout, which the hypothesis on the end state
expresses). -/
theorem c3_reload_before_report (sngp : Bool) (am ao : ℕ) (av : FVal)
    (al : ℕ) (im io : ℕ) (iv : FVal) (il : ℕ) (wm wo wep : ℕ) (wbv : FVal)
    (wl om oo oep ol : ℕ) (endM endMx : Machine)
    (evalOOD : ℕ → Option ℕ → FVal × FVal)
    (evalTest : ℕ → Option ℕ → FVal × FVal × FVal × FVal)
    (evalTestW : ℕ → Option ℕ → FVal × FVal × FVal)
    (confEval : ℕ → Option ℕ → FVal)
    (hE : sngp = true → endM.lsd = none) (hEx : sngp = true → endMx.lsd = none) :
    (∃ res, trainPyEpilogue sngp
        (trainPyRecord am ao "auroc" av (if sngp then none else some al))
        (trainPyRecord im io "inefficiency" iv (if sngp then none else some il))
        endM evalOOD evalTest confEval = Except.ok res ∧
      res.auroc = (evalOOD am (if sngp then none else some al)).1 ∧
      res.aupr = (evalOOD am (if sngp then none else some al)).2 ∧
      res.loss = (evalTest im (if sngp then none else some il)).1 ∧
      res.acc = (evalTest im (if sngp then none else some il)).2.1 ∧
      res.coverage = (evalTest im (if sngp then none else some il)).2.2.1 ∧
      res.ineff = (evalTest im (if sngp then none else some il)).2.2.2 ∧
      res.covMean = confEval im (if sngp then none else some il)) ∧
    trainPyEpilogue sngp
        (trainPyRecord am ao "auroc" av (if sngp then none else some al))
        (trainPyRecord im io "inefficiency" iv (if sngp then none else some il))
        endM evalOOD evalTest confEval =
      trainPyEpilogue sngp
        (trainPyRecord am ao "auroc" av (if sngp then none else some al))
        (trainPyRecord im io "inefficiency" iv (if sngp then none else some il))
        endMx evalOOD evalTest confEval ∧
    (∃ res, wbCompleted sngp
        (wbIneffRecord wm wo wep wbv (if sngp then none else some wl))
        (wbOodRecord om oo oep (if sngp then none else some ol))
        endM evalTestW evalOOD confEval = Except.ok res ∧
      res.testAcc = (evalTestW wm (if sngp then none else some wl)).1 ∧
      res.testLoss = (evalTestW wm (if sngp then none else some wl)).2.1 ∧
      res.ineff = (evalTestW wm (if sngp then none else some wl)).2.2 ∧
      res.auroc = (evalOOD om (if sngp then none else some ol)).1 ∧
      res.aupr = (evalOOD om (if sngp then none else some ol)).2 ∧
      res.covMean = confEval wm (if sngp then none else some wl)) ∧
    wbCompleted sngp
        (wbIneffRecord wm wo wep wbv (if sngp then none else some wl))
        (wbOodRecord om oo oep (if sngp then none else some ol))
        endM evalTestW evalOOD confEval =
      wbCompleted sngp
        (wbIneffRecord wm wo wep wbv (if sngp then none else some wl))
        (wbOodRecord om oo oep (if sngp then none else some ol))
        endMx evalTestW evalOOD confEval := by
  cases sngp
  · exact ⟨⟨_, rfl, rfl, rfl, rfl, rfl, rfl, rfl, rfl⟩, rfl,
      ⟨_, rfl, rfl, rfl, rfl, rfl, rfl, rfl⟩, rfl⟩
  · obtain ⟨ems, eos, els⟩ := endM
    obtain ⟨exs, exo, exl⟩ := endMx
    have h1 : els = none := hE rfl
    have h2 : exl = none := hEx rfl
    subst h1
    subst h2
    exact ⟨⟨_, rfl, rfl, rfl, rfl, rfl, rfl, rfl, rfl⟩, rfl,
      ⟨_, rfl, rfl, rfl, rfl, rfl, rfl, rfl⟩, rfl⟩

/-- c3OOD is a concrete OOD evaluator for the C3 witness. -/
def c3OOD : ℕ → Option ℕ → FVal × FVal :=
  fun n _ => (FVal.fin n, FVal.fin n)

/-- c3Test4 is a concrete `train.py` test evaluator for the C3 witness. -/
def c3Test4 : ℕ → Option ℕ → FVal × FVal × FVal × FVal :=
  fun n _ => (FVal.fin n, FVal.fin n, FVal.fin n, FVal.fin n)

/-- c3Test3 is a concrete wb test evaluator for the C3 witness. -/
def c3Test3 : ℕ → Option ℕ → FVal × FVal × FVal :=
  fun n _ => (FVal.fin n, FVal.fin n, FVal.fin n)

/-- c3Conf is a concrete conformal evaluator for the C3 witness. -/
def c3Conf : ℕ → Option ℕ → FVal := fun n _ => FVal.fin n

/-- c3_witness instantiates c3_reload_before_report on concrete checkpoints,
two different end-of-training states, and concrete evaluators. -/
theorem c3_witness :
    (∃ res, trainPyEpilogue false
        (trainPyRecord 81 82 "auroc" (FVal.fin 1) (some 83))
        (trainPyRecord 84 85 "inefficiency" (FVal.fin 2) (some 86))
        { msd := 1, osd := 2, lsd := some 3 } c3OOD c3Test4 c3Conf =
          Except.ok res ∧
      res.auroc = (c3OOD 81 (some 83)).1 ∧
      res.ineff = (c3Test4 84 (some 86)).2.2.2) ∧
    trainPyEpilogue false
        (trainPyRecord 81 82 "auroc" (FVal.fin 1) (some 83))
        (trainPyRecord 84 85 "inefficiency" (FVal.fin 2) (some 86))
        { msd := 1, osd := 2, lsd := some 3 } c3OOD c3Test4 c3Conf =
      trainPyEpilogue false
        (trainPyRecord 81 82 "auroc" (FVal.fin 1) (some 83))
        (trainPyRecord 84 85 "inefficiency" (FVal.fin 2) (some 86))
        { msd := 4, osd := 5, lsd := some 6 } c3OOD c3Test4 c3Conf ∧
    (∃ res, wbCompleted false
        (wbIneffRecord 87 88 3 (FVal.fin 2) (some 89))
        (wbOodRecord 90 91 4 (some 92))
        { msd := 1, osd := 2, lsd := some 3 } c3Test3 c3OOD c3Conf =
          Except.ok res ∧
      res.auroc = (c3OOD 90 (some 92)).1 ∧
      res.ineff = (c3Test3 87 (some 89)).2.2) := by
  obtain ⟨⟨res, hok, ha, -, -, -, -, hi, -⟩, hind, ⟨resw, hwok, -, -, hwi, hwa, -, -⟩, -⟩ :=
    c3_reload_before_report false 81 82 (FVal.fin 1) 83 84 85 (FVal.fin 2) 86
      87 88 3 (FVal.fin 2) 89 90 91 4 92
      { msd := 1, osd := 2, lsd := some 3 } { msd := 4, osd := 5, lsd := some 6 }
      c3OOD c3Test4 c3Test3 c3Conf
      (fun h => nomatch h) (fun h => nomatch h)
  exact ⟨⟨res, hok, ha, hi⟩, hind, ⟨resw, hwok, hwa, hwi⟩⟩

/-- ratCeil is a computable ceiling on the rationals, used by the conformal
threshold model below. -/
def ratCeil (q : ℚ) : ℤ := -(Rat.floor (-q))

/-- ratCeil_eq identifies ratCeil with the mathematical ceiling. -/
theorem ratCeil_eq (q : ℚ) : ratCeil q = ⌈q⌉ := by
  have h1 : Rat.floor (-q) = ⌊-q⌋ := by rw [Rat.floor_def', Rat.floor_def]
  rw [ratCeil, h1, Int.floor_neg, neg_neg]

/-- insortBy inserts an element into a list before the first element it
compares below-or-equal to. -/
def insortBy {α : Type} (le : α → α → Bool) (a : α) : List α → List α
  | [] => [a]
  | b :: bs => if le a b then a :: b :: bs else b :: insortBy le a bs

/-- sortBy is insertion sort with the given boolean comparison. -/
def sortBy {α : Type} (le : α → α → Bool) : List α → List α
  | [] => []
  | a :: as => insortBy le a (sortBy le as)

/-- insortBy_perm: insertion produces a permutation of consing. -/
theorem insortBy_perm {α : Type} (le : α → α → Bool) (a : α) (l : List α) :
    (insortBy le a l).Perm (a :: l) := by
  induction l with
  | nil => exact List.Perm.refl _
  | cons b bs ih =>
    by_cases h : le a b
    · simp [insortBy, h]
    · simp only [insortBy, h, Bool.false_eq_true, if_false, ite_false]
      exact (ih.cons b).trans (List.Perm.swap a b bs)

/-- sortBy_perm: sorting permutes the input list. -/
theorem sortBy_perm {α : Type} (le : α → α → Bool) (l : List α) :
    (sortBy le l).Perm l := by
  induction l with
  | nil => exact List.Perm.refl _
  | cons a as ih =>
    exact (insortBy_perm le a (sortBy le as)).trans (ih.cons a)

/-- Modelled from the spec: the function `tps` of `lib/evaluate_cp.py` is not
under `src/` (only its call sites in `train.py` are), so the corrected
conformal quantile level is modelled from the specification text: the level
is `ceil((n+1)(1-alpha)) / n`, clipped to at most 1.0. -/
def conformalQLevel (n : ℕ) (alpha : ℚ) : ℚ :=
  min (((ratCeil (((n : ℚ) + 1) * (1 - alpha)) : ℤ) : ℚ) / (n : ℚ)) 1

/-- Modelled from the spec: the quantile of the sorted scores under the
`higher` interpolation rule — the entry at index `ceil(q * (n - 1))` of the
ascending list, i.e. the smallest score at or above the computed rank. -/
def quantileHigher (sorted : List ℚ) (q : ℚ) : Option ℚ :=
  sorted.get? (ratCeil (q * ((sorted.length : ℚ) - 1))).toNat

/-- Modelled from the spec: the threshold computation of the
ConformalCalibrator — sort the nonconformity scores ascending and take the
conformalQLevel-quantile under the higher rule. -/
def tps_threshold (scores : List ℚ) (alpha : ℚ) : Option ℚ :=
  quantileHigher (sortBy (fun a b => decide (a ≤ b)) scores)
    (conformalQLevel scores.length alpha)

/-- ratCeil_eq_int evaluates the ceiling from a bracketing. -/
theorem ratCeil_eq_int (q : ℚ) (z : ℤ) (h1 : (z : ℚ) - 1 < q)
    (h2 : q ≤ (z : ℚ)) : ratCeil q = z := by
  rw [ratCeil_eq]
  exact Int.ceil_eq_iff.mpr ⟨h1, h2⟩

/-- C2: the conformal threshold equals the
`ceil((n+1)(1-alpha))/n`-quantile (clipped to at most 1.0) of the ascending
scores under the higher interpolation rule; for a nonempty calibration set
and `alpha` in `(0,1)` the threshold exists and is one of the calibration
scores; and on the concrete scores `[0.1, 0.2, 0.3, 0.4, 0.5]` with
`alpha = 1/5` the threshold is exactly `0.5`. -/
theorem c2_threshold (scores : List ℚ) (alpha : ℚ)
    (hn : 1 ≤ scores.length) (h0 : 0 < alpha) (h1 : alpha < 1) :
    (tps_threshold scores alpha =
      quantileHigher (sortBy (fun a b => decide (a ≤ b)) scores)
        (min (((⌈((scores.length : ℚ) + 1) * (1 - alpha)⌉ : ℤ) : ℚ) /
          (scores.length : ℚ)) 1)) ∧
    (∃ t, tps_threshold scores alpha = some t ∧ t ∈ scores) ∧
    tps_threshold [mkRat 1 10, mkRat 2 10, mkRat 3 10, mkRat 4 10, mkRat 5 10]
      (mkRat 1 5) = some (mkRat 5 10) := by
  refine ⟨?_, ?_, ?_⟩
  · rw [tps_threshold, conformalQLevel, ratCeil_eq]
  · rw [tps_threshold, quantileHigher]
    set srt := sortBy (fun a b : ℚ => decide (a ≤ b)) scores with hsrt
    have hperm : srt.Perm scores := sortBy_perm _ _
    have hlen : srt.length = scores.length := hperm.length_eq
    have hn2 : 1 ≤ srt.length := by rw [hlen]; exact hn
    have hq1 : conformalQLevel scores.length alpha ≤ 1 := min_le_right _ _
    have hnn : (0 : ℚ) ≤ (srt.length : ℚ) - 1 := by
      have hc : (1 : ℚ) ≤ (srt.length : ℚ) := by exact_mod_cast hn2
      linarith
    have hmul : conformalQLevel scores.length alpha * ((srt.length : ℚ) - 1)
        ≤ (srt.length : ℚ) - 1 := mul_le_of_le_one_left hnn hq1
    have hceil : ratCeil (conformalQLevel scores.length alpha *
        ((srt.length : ℚ) - 1)) ≤ (srt.length : ℤ) - 1 := by
      rw [ratCeil_eq]
      calc ⌈conformalQLevel scores.length alpha * ((srt.length : ℚ) - 1)⌉
          ≤ ⌈((srt.length : ℚ) - 1)⌉ := Int.ceil_le_ceil hmul
        _ = (srt.length : ℤ) - 1 := by
            rw [show ((srt.length : ℚ) - 1)
                = (((srt.length : ℤ) - 1 : ℤ) : ℚ) by push_cast; ring]
            exact Int.ceil_intCast _
    have hidx2 : (ratCeil (conformalQLevel scores.length alpha *
        ((srt.length : ℚ) - 1))).toNat < srt.length := by
      have h2 : (ratCeil (conformalQLevel scores.length alpha *
          ((srt.length : ℚ) - 1))).toNat ≤ srt.length - 1 := by
        rw [Int.toNat_le]
        rw [show (((srt.length - 1 : ℕ)) : ℤ) = (srt.length : ℤ) - 1 by
          omega]
        exact hceil
      omega
    exact ⟨srt.get ⟨_, hidx2⟩, List.get?_eq_get hidx2,
      hperm.mem_iff.mp (List.get_mem _ _ _)⟩
  · have hsort : sortBy (fun a b : ℚ => decide (a ≤ b))
        [mkRat 1 10, mkRat 2 10, mkRat 3 10, mkRat 4 10, mkRat 5 10]
        = [mkRat 1 10, mkRat 2 10, mkRat 3 10, mkRat 4 10, mkRat 5 10] := by
      decide
    have hmk : mkRat 1 5 = (1 : ℚ) / 5 := by
      rw [Rat.mkRat_eq_div]; norm_num
    have hlen5 : ([mkRat 1 10, mkRat 2 10, mkRat 3 10, mkRat 4 10,
        mkRat 5 10] : List ℚ).length = 5 := rfl
    have hc1 : ratCeil ((((5 : ℕ) : ℚ) + 1) * (1 - mkRat 1 5)) = 5 := by
      apply ratCeil_eq_int
      · rw [hmk]; push_cast; norm_num
      · rw [hmk]; push_cast; norm_num
    have hq : conformalQLevel 5 (mkRat 1 5) = 1 := by
      rw [conformalQLevel, hc1]
      norm_num
    rw [tps_threshold, hlen5, hsort, hq, quantileHigher]
    have hc2 : ratCeil (1 * ((([mkRat 1 10, mkRat 2 10, mkRat 3 10,
        mkRat 4 10, mkRat 5 10] : List ℚ).length : ℚ) - 1)) = 4 := by
      apply ratCeil_eq_int
      · rw [hlen5]; push_cast; norm_num
      · rw [hlen5]; push_cast; norm_num
    rw [hc2]
    rfl

/-- c2_witness instantiates c2_threshold on the concrete calibration scores
of the specification, with `n = 5` and `alpha = 1/5`. -/
theorem c2_witness :
    1 ≤ ([mkRat 1 10, mkRat 2 10, mkRat 3 10, mkRat 4 10, mkRat 5 10] :
      List ℚ).length ∧
    (0 : ℚ) < mkRat 1 5 ∧ (mkRat 1 5 : ℚ) < 1 ∧
    tps_threshold [mkRat 1 10, mkRat 2 10, mkRat 3 10, mkRat 4 10, mkRat 5 10]
      (mkRat 1 5) = some (mkRat 5 10) :=
  ⟨by decide, by decide, by decide,
    (c2_threshold [mkRat 1 10, mkRat 2 10, mkRat 3 10, mkRat 4 10, mkRat 5 10]
      (mkRat 1 5) (by decide) (by decide) (by decide)).2.2⟩

/-- JVal is a JSON-representable Python attribute value, as produced by
`json.loads`: null, a boolean, a number, a string, an array, or an object. -/
inductive JVal where
  | null : JVal
  | jbool : Bool → JVal
  | jnum : ℚ → JVal
  | jstr : String → JVal
  | jarr : List JVal → JVal
  | jobj : List (String × JVal) → JVal

/-- HAttrs is the attribute dictionary of a `Hyperparameters` object
(`vars(self)` in `lib/utils.py`), in insertion order. -/
abbrev HAttrs := List (String × JVal)

/-- setattrJ is Python `setattr`: replace the binding in place when the
attribute already exists, otherwise append it. -/
def setattrJ (attrs : HAttrs) (k : String) (v : JVal) : HAttrs :=
  if attrs.any (fun p => decide (p.1 = k)) then
    attrs.map (fun p => if p.1 = k then (k, v) else p)
  else attrs ++ [(k, v)]

/-- from_dict is `Hyperparameters.from_dict` (`lib/utils.py` lines 143-145):
`setattr(self, k, v)` for every item of the dictionary in order. -/
def from_dict (h : HAttrs) : HAttrs → HAttrs
  | [] => h
  | p :: rest => from_dict (setattrJ h p.1 p.2) rest

/-- to_dict is `Hyperparameters.to_dict`: `vars(self)`. -/
def to_dict (h : HAttrs) : HAttrs := h

/-- keyLe compares attribute bindings by key, the order used by
`json.dumps(..., sort_keys=True)`. -/
def keyLe (p q : String × JVal) : Bool := decide (p.1 ≤ q.1)

/-- to_json is `Hyperparameters.to_json`: the JSON text of `to_dict` with
sorted keys, represented here by its parsed value. -/
def to_json (h : HAttrs) : HAttrs := sortBy keyLe (to_dict h)

/-- hySave is `Hyperparameters.save`: write `to_json` to the file. -/
def hySave (h : HAttrs) : HAttrs := to_json h

/-- hyLoadInit is `Hyperparameters(path)`: `__init__` with a single
positional argument calls `self.load(path)` on a fresh object — `from_dict`
of the parsed file contents starting from no attributes — and then
`self.from_dict` of the empty keyword dictionary, which is the identity. -/
def hyLoadInit (file : HAttrs) : HAttrs := from_dict (from_dict [] file) []

/-- alookup is attribute access: the first binding of the key, if any. -/
def alookup (k : String) : HAttrs → Option JVal
  | [] => none
  | p :: rest => if p.1 = k then some p.2 else alookup k rest

/-- alookup_none: a key is absent exactly when it is not among the keys. -/
theorem alookup_none (k : String) (l : HAttrs) :
    alookup k l = none ↔ k ∉ l.map Prod.fst := by
  induction l with
  | nil => simp [alookup]
  | cons p rest ih =>
    by_cases hk : p.1 = k
    · simp [alookup, hk]
    · simp [alookup, hk, ih, Ne.symm hk]

/-- alookup_some: under distinct keys, a lookup result is exactly a list
member. -/
theorem alookup_some (k : String) (v : JVal) :
    ∀ l : HAttrs, (l.map Prod.fst).Nodup →
      (alookup k l = some v ↔ (k, v) ∈ l)
  | [], _ => by simp [alookup]
  | (pk, pv) :: rest, hnd => by
    have hnd0 : pk ∉ rest.map Prod.fst ∧ (rest.map Prod.fst).Nodup :=
      List.nodup_cons.mp (by simpa using hnd)
    by_cases hk : pk = k
    · subst hk
      simp only [alookup, if_pos rfl, List.mem_cons]
      constructor
      · intro hv
        injection hv with hv
        subst hv
        exact Or.inl rfl
      · rintro (heq | hmem)
        · injection heq with h1 h2
          rw [h2]
          simp
        · exact absurd (List.mem_map_of_mem Prod.fst hmem) hnd0.1
    · simp only [alookup, if_neg hk, List.mem_cons]
      rw [alookup_some k v rest hnd0.2]
      constructor
      · exact fun hm => Or.inr hm
      · rintro (heq | hmem)
        · exact absurd (congrArg Prod.fst heq).symm hk
        · exact hmem

/-- alookup_perm: lookup is invariant under permutation when keys are
distinct. -/
theorem alookup_perm (l l2 : HAttrs) (hperm : l.Perm l2)
    (hnd : (l.map Prod.fst).Nodup) (k : String) :
    alookup k l = alookup k l2 := by
  have hnd2 : (l2.map Prod.fst).Nodup := (hperm.map _).nodup_iff.mp hnd
  cases hv : alookup k l with
  | none =>
    have hk : k ∉ l.map Prod.fst := (alookup_none k l).mp hv
    have hk2 : k ∉ l2.map Prod.fst := fun hmem =>
      hk ((hperm.map Prod.fst).mem_iff.mpr hmem)
    exact ((alookup_none k l2).mpr hk2).symm
  | some v =>
    have hm : (k, v) ∈ l := (alookup_some k v l hnd).mp hv
    have hm2 : (k, v) ∈ l2 := hperm.mem_iff.mp hm
    exact ((alookup_some k v l2 hnd2).mpr hm2).symm

/-- setattrJ_fresh: assigning a key absent from the object appends. -/
theorem setattrJ_fresh (h : HAttrs) (k : String) (v : JVal)
    (hf : ∀ q ∈ h, q.1 ≠ k) : setattrJ h k v = h ++ [(k, v)] := by
  rw [setattrJ]
  have hany : h.any (fun p => decide (p.1 = k)) = false := by
    rw [List.any_eq_false]
    intro x hx
    simp only [decide_eq_true_eq]
    exact hf x hx
  rw [hany]
  simp

/-- from_dict_fresh: folding a distinct-keyed dictionary whose keys are all
absent from the object appends all of it in order. -/
theorem from_dict_fresh (d : HAttrs) : ∀ h : HAttrs,
    (∀ p ∈ d, ∀ q ∈ h, q.1 ≠ p.1) → (d.map Prod.fst).Nodup →
    from_dict h d = h ++ d := by
  induction d with
  | nil =>
    intro h _ _
    simp [from_dict]
  | cons p rest ih =>
    intro h hf hnd
    have hnd0 : p.1 ∉ rest.map Prod.fst ∧ (rest.map Prod.fst).Nodup :=
      List.nodup_cons.mp (by simpa using hnd)
    rw [from_dict,
      setattrJ_fresh h p.1 p.2 (fun q hq => hf p (List.mem_cons_self p rest) q hq),
      ih (h ++ [(p.1, p.2)]) ?_ hnd0.2]
    · simp
    · intro r hr q hq
      rcases List.mem_append.mp hq with hq1 | hq2
      · exact hf r (List.mem_cons_of_mem p hr) q hq1
      · have hq3 : q = (p.1, p.2) := by simpa using hq2
        rw [hq3]
        intro hc
        exact hnd0.1 (hc ▸ List.mem_map_of_mem Prod.fst hr)

/-- C10: for every Hyperparameters object with distinct attribute names and
JSON-representable values, `save(path)` followed by `Hyperparameters(path)`
yields an object whose `to_dict()` equals the original `to_dict()` as a
Python dictionary: every attribute lookup agrees. -/
theorem c10_roundtrip (h : HAttrs) (hnd : (h.map Prod.fst).Nodup)
    (k : String) :
    alookup k (to_dict (hyLoadInit (hySave h))) = alookup k (to_dict h) := by
  have hperm : (sortBy keyLe h).Perm h := sortBy_perm keyLe h
  have hnd2 : ((sortBy keyLe h).map Prod.fst).Nodup :=
    (hperm.map _).nodup_iff.mpr hnd
  have hfd : from_dict [] (sortBy keyLe h) = sortBy keyLe h := by
    have hx := from_dict_fresh (sortBy keyLe h) []
      (fun p _ q hq => absurd hq (List.not_mem_nil q)) hnd2
    simpa using hx
  show alookup k (from_dict [] (sortBy keyLe h)) = alookup k h
  rw [hfd]
  exact alookup_perm _ _ hperm hnd2 k

/-- c10Attrs is a concrete Hyperparameters object mirroring the command-line
arguments of the training scripts. -/
def c10Attrs : HAttrs :=
  [("learning_rate", JVal.jnum (mkRat 1 100)),
   ("batch_size", JVal.jnum 64),
   ("sngp", JVal.jbool false),
   ("dataset", JVal.jstr "CIFAR10"),
   ("force_directory", JVal.null)]

/-- c10_witness instantiates c10_roundtrip on a concrete attribute
dictionary and two concrete keys. -/
theorem c10_witness :
    (c10Attrs.map Prod.fst).Nodup ∧
    alookup "learning_rate" (to_dict (hyLoadInit (hySave c10Attrs)))
      = alookup "learning_rate" (to_dict c10Attrs) ∧
    alookup "dataset" (to_dict (hyLoadInit (hySave c10Attrs)))
      = alookup "dataset" (to_dict c10Attrs) :=
  ⟨by decide, c10_roundtrip c10Attrs (by decide) "learning_rate",
    c10_roundtrip c10Attrs (by decide) "dataset"⟩

end DUE
